import Mathlib

/-!
Verification development for the YouTube-Shorts automation repository.

The two core subsystems are shallowly embedded here:
 * the job pipeline orchestrator (`services/jobQueue.js`): stage progress
   weight mapping and the retry options handed to the durable queue;
 * the scheduler (`services/scheduler.js`): schedule records, timers,
   single and bulk scheduling, cancellation, execution and startup
   recovery.

Timestamps are modelled as absolute instants in milliseconds (`Int`):
`moment.tz(isoString, tz)` and `Date` both denote an absolute instant, so
timezone interpretation is the identity on the already-absolute value.
Javascript `Map`s are modelled as association lists in insertion order;
uuid generation is modelled as a fresh counter (`nextId`).
-/

namespace YtShorts

/-! ## Definitions: the shallow embedding of the orchestrator and scheduler -/

/-- Download-stage progress mapping, from `jobQueue.processVideo`:
`const percent = 10 + (progress.percent * 0.2)`. -/
def downloadPercentMap (p : ℚ) : ℚ := 10 + p * (2 / 10)

/-- Split/resize-stage progress mapping, from `jobQueue.processVideo`:
`const percent = 30 + (progress.percent * 0.4)`. -/
def processingPercentMap (p : ℚ) : ℚ := 30 + p * (4 / 10)

/-- The `status` field of a persisted schedule record. -/
inductive ScheduleStatus
  | scheduled
  | executing
  | completed
  | failed
  | cancelled
  deriving DecidableEq, Repr

/-- The value returned by `jobQueue.addUploadJob`: `{ jobId, status: 'queued' }`. -/
structure JobInfo where
  jobId : Nat
  status : String
  deriving DecidableEq, Repr

/-- A persisted schedule record, as built by `scheduler.scheduleUpload` and
mutated by `executeUpload` / `cancelSchedule`.  The upload payload is opaque
to the scheduler and modelled as a `Nat`. -/
structure ScheduleData where
  id : Nat
  uploadData : Nat
  scheduledTime : Int
  timezone : String
  status : ScheduleStatus
  createdAt : Int
  result : Option JobInfo := none
  error : Option String := none
  completedAt : Option Int := none
  failedAt : Option Int := none
  cancelledAt : Option Int := none
  deriving DecidableEq, Repr

/-- The scheduler's in-memory state: `this.schedules` (id ↦ record),
`this.jobs` (id ↦ armed timer, remembered with its fire time) and the
uuid source modelled as a counter. -/
structure SchedulerState where
  schedules : List (Nat × ScheduleData)
  jobs : List (Nat × Int)
  nextId : Nat
  deriving DecidableEq, Repr

/-- `Map.get`: first (and, with unique keys, only) binding of a key. -/
def mlookup {α : Type} : List (Nat × α) → Nat → Option α
  | [], _ => none
  | p :: rest, k => if p.1 = k then some p.2 else mlookup rest k

/-- `Map.set`: replace the binding in place when the key is present
(javascript `Map` keeps insertion order), append otherwise. -/
def mset {α : Type} (m : List (Nat × α)) (k : Nat) (v : α) : List (Nat × α) :=
  if (mlookup m k).isSome then
    m.map (fun p => if p.1 = k then (k, v) else p)
  else
    m ++ [(k, v)]

/-- `Map.delete`: drop every binding of the key. -/
def mdelete {α : Type} : List (Nat × α) → Nat → List (Nat × α)
  | [], _ => []
  | p :: rest, k => if p.1 = k then mdelete rest k else p :: mdelete rest k

/-- The value returned to the caller of `scheduleUpload`. -/
structure ScheduleResult where
  scheduleId : Nat
  scheduledTime : Int
  status : ScheduleStatus
  deriving DecidableEq, Repr

/-- `scheduler.scheduleUpload(uploadData, scheduledTime, timezone)`.
Throws (`Except.error`, leaving the state untouched — the source throws
before any mutation) when the scheduled instant is not strictly in the
future; otherwise persists a fresh `scheduled` record and arms a timer
for the scheduled instant.  A fresh uuid is modelled by `nextId`; a uuid
drawn for a rejected call is unobservable, so the counter only advances
on success. -/
def scheduleUpload (st : SchedulerState) (now : Int) (uploadData : Nat)
    (scheduledTime : Int) (timezone : String) :
    SchedulerState × Except String ScheduleResult :=
  let scheduleId := st.nextId
  let scheduledDate := scheduledTime
  if scheduledDate ≤ now then
    (st, .error "Scheduled time must be in the future")
  else
    let sd : ScheduleData :=
      { id := scheduleId, uploadData := uploadData, scheduledTime := scheduledDate,
        timezone := timezone, status := .scheduled, createdAt := now }
    ({ schedules := st.schedules ++ [(scheduleId, sd)],
       jobs := st.jobs ++ [(scheduleId, scheduledDate)],
       nextId := st.nextId + 1 },
     .ok { scheduleId := scheduleId, scheduledTime := scheduledDate, status := .scheduled })

/-- One hour in milliseconds (`moment(...).add(x, 'hours')`). -/
def hourMs : Int := 3600000

/-- One day in milliseconds (`moment(...).add(x, 'days')`). -/
def dayMs : Int := 86400000

/-- The `pattern` argument of `scheduleBulk`; destructured in the source as
`const { type, startTime, timezone = 'UTC', interval = null, times = null } = pattern`. -/
structure BulkPattern where
  type : String
  startTime : Int
  timezone : String := "UTC"
  interval : Option Int := none
  times : Option (List Int) := none
  deriving Repr

/-- Javascript `ToNumber` coercion of a possibly-`null` numeric field:
`null` coerces to `0` (so `index * null === 0`). -/
def jsNullToZero (v : Option Int) : Int := v.getD 0

/-- The scheduled time computed for the upload at `index` inside the
`switch (type)` of `scheduleBulk`; `Except.error` models the `throw`s. -/
def bulkScheduledTime (pattern : BulkPattern) (index : Nat) : Except String Int :=
  if pattern.type = "interval" then
    .ok (pattern.startTime + (index : Int) * jsNullToZero pattern.interval * hourMs)
  else if pattern.type = "daily" then
    .ok (pattern.startTime + (index : Int) * dayMs)
  else if pattern.type = "custom" then
    match pattern.times with
    | some ts =>
      match ts[index]? with
      | some t => .ok t
      | none => .error "Not enough custom times provided"
    | none => .error "Not enough custom times provided"
  else
    .error "Invalid pattern type"

/-- The `uploads.forEach((upload, index) => ...)` loop of `scheduleBulk`: an
exception thrown inside the loop aborts the remaining iterations but keeps
the mutations already performed by earlier iterations. -/
def scheduleBulkAux (now : Int) (pattern : BulkPattern) :
    SchedulerState → List Nat → Nat → List ScheduleResult →
      SchedulerState × Except String (List ScheduleResult)
  | st, [], _, acc => (st, .ok acc.reverse)
  | st, upload :: rest, index, acc =>
    match bulkScheduledTime pattern index with
    | .error e => (st, .error e)
    | .ok t =>
      match scheduleUpload st now upload t pattern.timezone with
      | (st', .ok r) => scheduleBulkAux now pattern st' rest (index + 1) (r :: acc)
      | (st', .error e) => (st', .error e)

/-- `scheduler.scheduleBulk(uploads, pattern)`. -/
def scheduleBulk (st : SchedulerState) (now : Int) (uploads : List Nat)
    (pattern : BulkPattern) : SchedulerState × Except String (List ScheduleResult) :=
  scheduleBulkAux now pattern st uploads 0 []

/-- `scheduler.cancelSchedule(scheduleId)`: cancel and drop the armed timer
if present, then mark the record `cancelled` (recording `cancelledAt`) if it
exists. -/
def cancelSchedule (st : SchedulerState) (now : Int) (scheduleId : Nat) : SchedulerState :=
  let st1 : SchedulerState := { st with jobs := mdelete st.jobs scheduleId }
  match mlookup st.schedules scheduleId with
  | some sd =>
    let sd' : ScheduleData := { sd with status := .cancelled, cancelledAt := some now }
    { st1 with schedules := mset st.schedules scheduleId sd' }
  | none => st1

/-- `scheduler.executeUpload(scheduleId)` as the list of states persisted by
its `saveSchedules()` calls, in order.  The outcome of
`jobQueue.addUploadJob` — the only statement inside the `try` that can
throw — is an input (`submit`).  When the record is missing the handler
logs and returns without persisting anything (`[]`); otherwise it persists
the `executing` transition, then the terminal `completed`/`failed`
transition, dropping the timer entry. -/
def executeUploadStates (st : SchedulerState) (now : Int) (scheduleId : Nat)
    (submit : Except String JobInfo) : List SchedulerState :=
  match mlookup st.schedules scheduleId with
  | none => []
  | some sd =>
    let stExec : SchedulerState :=
      { st with schedules := mset st.schedules scheduleId ({ sd with status := .executing }) }
    match submit with
    | .ok r =>
      [stExec,
       { stExec with
           schedules := mset stExec.schedules scheduleId
             ({ sd with status := .completed, result := some r, completedAt := some now }),
           jobs := mdelete stExec.jobs scheduleId }]
    | .error e =>
      [stExec,
       { stExec with
           schedules := mset stExec.schedules scheduleId
             ({ sd with status := .failed, error := some e, failedAt := some now }),
           jobs := mdelete stExec.jobs scheduleId }]

/-- The state the scheduler is left in after `executeUpload` returns. -/
def executeUpload (st : SchedulerState) (now : Int) (scheduleId : Nat)
    (submit : Except String JobInfo) : SchedulerState :=
  (executeUploadStates st now scheduleId submit).getLastD st

/-- `scheduler.rescheduleJob(scheduleId, scheduleData)`: arm a timer for the
record's (unchanged) `scheduledTime`. -/
def rescheduleJob (st : SchedulerState) (scheduleId : Nat) (sd : ScheduleData) :
    SchedulerState :=
  { st with jobs := mset st.jobs scheduleId sd.scheduledTime }

/-- `scheduler.reschedule(scheduleId, newTime, timezone)`: fails with
`NotFound` if the id is unknown; otherwise cancels the pending timer,
updates the record back to `scheduled` at the new time, and re-arms. -/
def reschedule (st : SchedulerState) (now : Int) (scheduleId : Nat) (newTime : Int)
    (timezone : String) : SchedulerState × Except String ScheduleResult :=
  match mlookup st.schedules scheduleId with
  | none => (st, .error "Schedule not found")
  | some sd =>
    let sd' : ScheduleData :=
      { sd with scheduledTime := newTime, timezone := timezone, status := .scheduled }
    let st' : SchedulerState := { st with schedules := mset st.schedules scheduleId sd' }
    (rescheduleJob st' scheduleId sd',
     .ok { scheduleId := scheduleId, scheduledTime := newTime, status := .scheduled })

/-- An external stimulus applied to the scheduler: an API call, or a
`node-schedule` timer firing (with the outcome of the
`jobQueue.addUploadJob` call the firing handler will make). -/
inductive SchedulerEvent
  | scheduleReq (uploadData : Nat) (scheduledTime : Int) (timezone : String)
  | bulkReq (uploads : List Nat) (pattern : BulkPattern)
  | cancelReq (scheduleId : Nat)
  | rescheduleReq (scheduleId : Nat) (newTime : Int) (timezone : String)
  | timerFire (scheduleId : Nat) (submit : Except String JobInfo)

/-- One scheduler step.  Besides the successor state it reports which
schedule (if any) handed an upload to job submission during the step: the
firing handler calls `addUploadJob` exactly when a live timer fires and the
record is found.  A `timerFire` for an id with no live timer is a no-op —
`node-schedule` only invokes the callback of a non-cancelled, armed job,
and a one-shot timer is spent once it fires. -/
def schedStep (st : SchedulerState) (now : Int) : SchedulerEvent → SchedulerState × List Nat
  | .scheduleReq u t tz => ((scheduleUpload st now u t tz).1, [])
  | .bulkReq us pattern => ((scheduleBulk st now us pattern).1, [])
  | .cancelReq scheduleId => (cancelSchedule st now scheduleId, [])
  | .rescheduleReq scheduleId t tz => ((reschedule st now scheduleId t tz).1, [])
  | .timerFire scheduleId submit =>
    if (mlookup st.jobs scheduleId).isSome then
      (executeUpload { st with jobs := mdelete st.jobs scheduleId } now scheduleId submit,
       if (mlookup st.schedules scheduleId).isSome then [scheduleId] else [])
    else
      (st, [])

/-- Run a timed trace of events, collecting every schedule id that handed
an upload to job submission. -/
def schedRun : SchedulerState → List (Int × SchedulerEvent) → SchedulerState × List Nat
  | st, [] => (st, [])
  | st, (now, ev) :: rest =>
    let step := schedStep st now ev
    let restRun := schedRun step.1 rest
    (restRun.1, step.2 ++ restRun.2)

/-- Whether an event is an explicit `reschedule` of the given id (the one
operation that deliberately resurrects a cancelled schedule). -/
def reschedulesId (scheduleId : Nat) : SchedulerEvent → Bool
  | .rescheduleReq j _ _ => j == scheduleId
  | _ => false

/-- The key safety invariant for claim C4: the id has no live timer, and is
below the fresh-id counter (so no later `scheduleUpload` can collide with
it — uuids are never reused). -/
def TimerFree (scheduleId : Nat) (st : SchedulerState) : Prop :=
  mlookup st.jobs scheduleId = none ∧ scheduleId < st.nextId

/-- A concrete scheduled record used by closed witness statements. -/
def sampleSchedule : ScheduleData :=
  { id := 0, uploadData := 3, scheduledTime := 100, timezone := "UTC",
    status := .scheduled, createdAt := 0 }

/-- A concrete scheduler state holding `sampleSchedule` with a live timer. -/
def sampleState : SchedulerState :=
  { schedules := [(0, sampleSchedule)], jobs := [(0, 100)], nextId := 1 }

/-- The loop body of the `schedules.forEach` in `scheduler.loadSchedules`,
threaded over the loaded records: a record with status `scheduled` and a
strictly-future `scheduledTime` gets a timer armed (`rescheduleJob`) at its
original, unchanged `scheduledTime`; every other record is skipped. -/
def loadTimersGo (now : Int) (acc : List (Nat × Int)) (l : List (Nat × ScheduleData)) :
    List (Nat × Int) :=
  l.foldl
    (fun acc p =>
      if p.2.status = .scheduled ∧ now < p.2.scheduledTime then
        mset acc p.1 p.2.scheduledTime
      else acc) acc

/-- `scheduler.loadSchedules()`: reload the persisted records unchanged and
re-arm timers for the still-future `scheduled` ones; `fresh` seeds the uuid
counter. -/
def loadSchedules (persisted : List (Nat × ScheduleData)) (now : Int) (fresh : Nat) :
    SchedulerState :=
  { schedules := persisted, jobs := loadTimersGo now [] persisted, nextId := fresh }

/-- A persisted record whose scheduled time is already in the past. -/
def staleSchedule : ScheduleData :=
  { id := 1, uploadData := 4, scheduledTime := 20, timezone := "UTC",
    status := .scheduled, createdAt := 0 }

/-- The retry options `jobQueue.addProcessingJob` and
`jobQueue.addUploadJob` pass to `queue.add`:
`{ attempts: 3, backoff: { type: 'exponential', delay: 5000 } }`. -/
structure JobOptions where
  attempts : Nat
  backoffType : String
  backoffDelay : Nat
  deriving Repr

/-- Options used for `process-video` jobs (`addProcessingJob`). -/
def processingJobOptions : JobOptions :=
  { attempts := 3, backoffType := "exponential", backoffDelay := 5000 }

/-- Options used for `upload-video` jobs (`addUploadJob`). -/
def uploadJobOptions : JobOptions :=
  { attempts := 3, backoffType := "exponential", backoffDelay := 5000 }

/-- Terminal state of a queued job. -/
inductive JobEndState
  | completed
  | failed
  deriving DecidableEq, Repr

/-- Observable outcome of running a job through the queue's retry engine:
terminal state, number of attempts actually executed, the recorded
`failedReason`, the processor's result, and the backoff delays waited
between consecutive attempts, in order. -/
structure JobOutcome where
  state : JobEndState
  attemptsMade : Nat
  failureReason : Option String
  result : Option Nat
  delays : List Nat
  deriving DecidableEq, Repr

/-- Modelled from the spec: the durable queue's retry engine (the `bull`
library, which the repository configures in `jobQueue.js` but does not
contain).  Per the spec's retry/backoff policy, an unhandled failure
requeues the job up to the attempt cap with exponential backoff (base
delay, doubling: the wait after the n-th failed attempt is
`delay * 2^(n-1)`), after which the job is marked `failed` with the
triggering error recorded verbatim; a success ends the job `completed`
with no further attempts.  `exec k` is the outcome of attempt `k`
(0-based). -/
def runAttempts (exec : Nat → Except String Nat) (baseDelay : Nat) :
    Nat → Nat → JobOutcome
  | made, 0 =>
    { state := .failed, attemptsMade := made, failureReason := none, result := none,
      delays := [] }
  | made, fuel + 1 =>
    match exec made with
    | .ok v =>
      { state := .completed, attemptsMade := made + 1, failureReason := none,
        result := some v, delays := [] }
    | .error e =>
      if fuel = 0 then
        { state := .failed, attemptsMade := made + 1, failureReason := some e,
          result := none, delays := [] }
      else
        let rest := runAttempts exec baseDelay (made + 1) fuel
        { rest with delays := baseDelay * 2 ^ made :: rest.delays }

/-- Run a job under the given queue options. -/
def runJob (opts : JobOptions) (exec : Nat → Except String Nat) : JobOutcome :=
  runAttempts exec opts.backoffDelay 0 opts.attempts

/-- Source-video metadata consumed by `aiService`. -/
structure VideoMetadata where
  title : String
  description : Option String := none
  tags : Option (List String) := none
  deriving Repr

/-- Per-clip metadata consumed by `aiService`. -/
structure ClipInfo where
  index : Nat
  startTime : Int := 0
  duration : Int := 0
  deriving Repr

/-- A generated title/description pair (either field may be `null` on the
parse path). -/
structure GeneratedContent where
  title : Option String
  description : Option String
  deriving DecidableEq, Repr

/-- `aiService.generateFallbackContent(videoMetadata, clipInfo)`: the
deterministic fallback used whenever the model is unavailable or errors. -/
def generateFallbackContent (videoMetadata : VideoMetadata) (clipInfo : ClipInfo) :
    GeneratedContent :=
  { title := some (videoMetadata.title ++ " - Part " ++ toString (clipInfo.index + 1)
      ++ " #Shorts"),
    description := some ("Check out this amazing clip from: " ++ videoMetadata.title
      ++ "\n\n#Shorts #YouTubeShorts #Viral #Trending") }

/-- `aiService.generateTitleAndDescription(videoMetadata, clipInfo)`.
`aiCall = none` models `this.model` being unset (no API key / failed
initialization); `some (.error e)` models the awaited model call rejecting
(caught by the `try`/`catch`); `some (.ok parsed)` models a successful call
whose response text has already been through `parseResponse` — the success
payload is opaque here, as no claim concerns the parse path. -/
def generateTitleAndDescription (aiCall : Option (Except String GeneratedContent))
    (videoMetadata : VideoMetadata) (clipInfo : ClipInfo) : GeneratedContent :=
  match aiCall with
  | none => generateFallbackContent videoMetadata clipInfo
  | some (.error _) => generateFallbackContent videoMetadata clipInfo
  | some (.ok parsed) => parsed

/-! ## Theorems: helper lemmas, then the claims -/

@[simp] theorem mlookup_nil {α : Type} (k : Nat) : mlookup ([] : List (Nat × α)) k = none := rfl

@[simp] theorem mlookup_cons {α : Type} (p : Nat × α) (rest : List (Nat × α)) (k : Nat) :
    mlookup (p :: rest) k = if p.1 = k then some p.2 else mlookup rest k := rfl

theorem mlookup_append {α : Type} (l l' : List (Nat × α)) (k : Nat) :
    mlookup (l ++ l') k = ((mlookup l k).or (mlookup l' k)) := by
  induction l with
  | nil => simp
  | cons p rest ih =>
    by_cases h : p.1 = k <;> simp [mlookup, h, ih]

theorem mlookup_map_ite {α : Type} (l : List (Nat × α)) (k k' : Nat) (v : α) (h : k' ≠ k) :
    mlookup (l.map (fun p => if p.1 = k then (k, v) else p)) k' = mlookup l k' := by
  induction l with
  | nil => simp
  | cons p rest ih =>
    by_cases hp : p.1 = k
    · have : k ≠ k' := fun hk => h hk.symm
      simp [mlookup, hp, this, ih]
    · simp only [List.map_cons, if_neg hp, mlookup_cons, ih]

theorem mlookup_mset_ne {α : Type} (l : List (Nat × α)) (k k' : Nat) (v : α) (h : k' ≠ k) :
    mlookup (mset l k v) k' = mlookup l k' := by
  unfold mset
  by_cases hs : (mlookup l k).isSome
  · rw [if_pos hs, mlookup_map_ite l k k' v h]
  · rw [if_neg hs, mlookup_append]
    have hk : ¬(k = k') := fun hk => h hk.symm
    simp [mlookup, hk]

theorem mlookup_mset_self {α : Type} (l : List (Nat × α)) (k : Nat) (v : α) :
    mlookup (mset l k v) k = some v := by
  unfold mset
  by_cases hs : (mlookup l k).isSome
  · rw [if_pos hs]
    induction l with
    | nil => simp [mlookup] at hs
    | cons p rest ih =>
      by_cases hp : p.1 = k
      · simp [mlookup, hp]
      · simp only [mlookup_cons, if_neg hp] at hs
        simp only [List.map_cons, if_neg hp, mlookup_cons, if_neg hp, ih hs]
  · rw [if_neg hs, mlookup_append]
    have hn : mlookup l k = none := Option.not_isSome_iff_eq_none.mp hs
    simp [hn, mlookup]

theorem mlookup_mdelete_self {α : Type} (l : List (Nat × α)) (k : Nat) :
    mlookup (mdelete l k) k = none := by
  induction l with
  | nil => rfl
  | cons p rest ih =>
    by_cases hp : p.1 = k
    · simpa [mdelete, hp] using ih
    · simpa [mdelete, hp, mlookup] using ih

theorem mlookup_mdelete_ne {α : Type} (l : List (Nat × α)) (k k' : Nat) (h : k' ≠ k) :
    mlookup (mdelete l k) k' = mlookup l k' := by
  induction l with
  | nil => rfl
  | cons p rest ih =>
    by_cases hp : p.1 = k
    · have hne : ¬(k = k') := fun hk => h hk.symm
      simp [mdelete, hp, mlookup, hne, ih]
    · simp [mdelete, hp, mlookup, ih]

/-- Claim C1 counterexample: the download-stage mapping does not clamp.
At adapter-local percent 150 the emitted percent is 40, outside [10, 30],
so the claim as stated (every download-stage value lies within [10, 30]
for all adapter-reported percentages) is false. -/
theorem downloadPercentMap_not_clamped :
    downloadPercentMap 150 = 40 ∧
      ¬(10 ≤ downloadPercentMap 150 ∧ downloadPercentMap 150 ≤ 30) := by
  constructor
  · norm_num [downloadPercentMap]
  · intro h
    have := h.2
    norm_num [downloadPercentMap] at this

/-- Claim C1 (amended): for adapter-local percents within [0, 100] the
download-stage mapping lands in [10, 30] and the split/resize-stage
mapping lands in [30, 70]; the mapping scales but does not clamp, so
out-of-range adapter percents map outside those bounds. -/
theorem percentMap_bounds (p : ℚ) (h0 : 0 ≤ p) (h100 : p ≤ 100) :
    (10 ≤ downloadPercentMap p ∧ downloadPercentMap p ≤ 30) ∧
      (30 ≤ processingPercentMap p ∧ processingPercentMap p ≤ 70) := by
  unfold downloadPercentMap processingPercentMap
  constructor <;> constructor <;> nlinarith

/-- Witness for `percentMap_bounds` at adapter percent 50. -/
theorem percentMap_bounds_witness :
    (10 ≤ downloadPercentMap 50 ∧ downloadPercentMap 50 ≤ 30) ∧
      (30 ≤ processingPercentMap 50 ∧ processingPercentMap 50 ≤ 70) :=
  percentMap_bounds 50 (by norm_num) (by norm_num)

/-- Claim C3: `scheduleUpload` with a scheduled instant not strictly after
the current time fails with `InvalidTime` ("Scheduled time must be in the
future") and performs no state change: no record is persisted and no timer
is armed. -/
theorem scheduleUpload_past_rejected (st : SchedulerState) (now : Int)
    (uploadData : Nat) (scheduledTime : Int) (timezone : String)
    (h : scheduledTime ≤ now) :
    scheduleUpload st now uploadData scheduledTime timezone =
      (st, .error "Scheduled time must be in the future") := by
  simp [scheduleUpload, h]

/-- Witness for `scheduleUpload_past_rejected`: scheduling for instant 5
at current time 10 is rejected and leaves the empty state untouched. -/
theorem scheduleUpload_past_rejected_witness :
    scheduleUpload ⟨[], [], 0⟩ 10 7 5 "UTC" =
      (⟨[], [], 0⟩, .error "Scheduled time must be in the future") :=
  scheduleUpload_past_rejected ⟨[], [], 0⟩ 10 7 5 "UTC" (by norm_num)

theorem scheduleUpload_future (st : SchedulerState) (now : Int) (u : Nat) (t : Int)
    (tz : String) (h : now < t) :
    scheduleUpload st now u t tz =
      ({ schedules := st.schedules ++ [(st.nextId,
           { id := st.nextId, uploadData := u, scheduledTime := t, timezone := tz,
             status := .scheduled, createdAt := now })],
         jobs := st.jobs ++ [(st.nextId, t)],
         nextId := st.nextId + 1 },
       .ok { scheduleId := st.nextId, scheduledTime := t, status := .scheduled }) := by
  simp [scheduleUpload, not_le.mpr h]

/-- Claim C7: `scheduleBulk` with pattern `{type:'interval', startTime: T,
interval: 2}` and three uploads (all times in the future) creates exactly
three distinct `scheduled` records at `T`, `T + 2h`, `T + 4h`, returned in
that order; in general the interval pattern assigns upload `i` the time
`startTime + i * interval` hours. -/
theorem scheduleBulk_interval_three (st : SchedulerState) (now T : Int) (tz : String)
    (u1 u2 u3 : Nat) (h : now < T) :
    scheduleBulk st now [u1, u2, u3]
        { type := "interval", startTime := T, timezone := tz, interval := some 2 } =
      ({ schedules := st.schedules ++
           [(st.nextId,
             { id := st.nextId, uploadData := u1, scheduledTime := T, timezone := tz,
               status := .scheduled, createdAt := now }),
            (st.nextId + 1,
             { id := st.nextId + 1, uploadData := u2, scheduledTime := T + 2 * hourMs,
               timezone := tz, status := .scheduled, createdAt := now }),
            (st.nextId + 2,
             { id := st.nextId + 2, uploadData := u3, scheduledTime := T + 4 * hourMs,
               timezone := tz, status := .scheduled, createdAt := now })],
         jobs := st.jobs ++
           [(st.nextId, T), (st.nextId + 1, T + 2 * hourMs), (st.nextId + 2, T + 4 * hourMs)],
         nextId := st.nextId + 3 },
       .ok [{ scheduleId := st.nextId, scheduledTime := T, status := .scheduled },
            { scheduleId := st.nextId + 1, scheduledTime := T + 2 * hourMs, status := .scheduled },
            { scheduleId := st.nextId + 2, scheduledTime := T + 4 * hourMs, status := .scheduled }]) := by
  have hpos : (0 : Int) < hourMs := by norm_num [hourMs]
  have h1 : now < T + 2 * hourMs := by omega
  have h2 : now < T + 4 * hourMs := by omega
  have hn0 : ¬(T ≤ now) := not_le.mpr h
  have hn1 : ¬(T + 2 * hourMs ≤ now) := not_le.mpr h1
  have hn2 : ¬(T + 4 * hourMs ≤ now) := not_le.mpr h2
  simp [scheduleBulk, scheduleBulkAux, bulkScheduledTime, jsNullToZero, scheduleUpload,
    hn0, hn1, hn2, List.append_assoc]

/-- Witness for `scheduleBulk_interval_three` at `now = 0`, `T = 10`. -/
theorem scheduleBulk_interval_three_witness :
    scheduleBulk ⟨[], [], 0⟩ 0 [4, 5, 6]
        { type := "interval", startTime := 10, timezone := "UTC", interval := some 2 } =
      ({ schedules :=
           [(0, { id := 0, uploadData := 4, scheduledTime := 10, timezone := "UTC",
                  status := .scheduled, createdAt := 0 }),
            (1, { id := 1, uploadData := 5, scheduledTime := 10 + 2 * hourMs, timezone := "UTC",
                  status := .scheduled, createdAt := 0 }),
            (2, { id := 2, uploadData := 6, scheduledTime := 10 + 4 * hourMs, timezone := "UTC",
                  status := .scheduled, createdAt := 0 })],
         jobs := [(0, 10), (1, 10 + 2 * hourMs), (2, 10 + 4 * hourMs)],
         nextId := 3 },
       .ok [{ scheduleId := 0, scheduledTime := 10, status := .scheduled },
            { scheduleId := 1, scheduledTime := 10 + 2 * hourMs, status := .scheduled },
            { scheduleId := 2, scheduledTime := 10 + 4 * hourMs, status := .scheduled }]) := by
  simpa using scheduleBulk_interval_three ⟨[], [], 0⟩ 0 10 "UTC" 4 5 6 (by norm_num)

theorem scheduleBulkAux_interval_none (now T : Int) (tz : String) (h : now < T) :
    ∀ (uploads : List Nat) (st : SchedulerState) (index : Nat) (acc : List ScheduleResult),
      (∀ r ∈ acc, r.scheduledTime = T ∧ r.status = .scheduled) →
      ∃ rs,
        (scheduleBulkAux now { type := "interval", startTime := T, timezone := tz }
            st uploads index acc).2 = .ok rs ∧
        rs.length = uploads.length + acc.length ∧
        ∀ r ∈ rs, r.scheduledTime = T ∧ r.status = .scheduled := by
  intro uploads
  induction uploads with
  | nil =>
    intro st index acc hacc
    refine ⟨acc.reverse, rfl, by simp, ?_⟩
    intro r hr
    exact hacc r (List.mem_reverse.mp hr)
  | cons u rest ih =>
    intro st index acc hacc
    have et : bulkScheduledTime { type := "interval", startTime := T, timezone := tz } index
        = .ok T := by
      simp [bulkScheduledTime, jsNullToZero]
    simp only [scheduleBulkAux, et]
    rw [scheduleUpload_future _ _ _ _ _ h]
    obtain ⟨rs, h1, h2, h3⟩ :=
      ih _ (index + 1) ((⟨st.nextId, T, .scheduled⟩ : ScheduleResult) :: acc) (by
        intro r hr
        rcases List.mem_cons.mp hr with hr | hr
        · subst hr; exact ⟨rfl, rfl⟩
        · exact hacc r hr)
    refine ⟨rs, h1, ?_, h3⟩
    simp only [List.length_cons] at h2 ⊢
    omega

/-- Claim C10: when the interval pattern's `interval` field is absent it
defaults to `null`, and `index * null` coerces to `0`, so (all times being
valid) every upload in the batch is scheduled at exactly `startTime` and no
error is raised. -/
theorem scheduleBulk_interval_defaulted (st : SchedulerState) (now T : Int) (tz : String)
    (uploads : List Nat) (h : now < T) :
    ∃ rs,
      (scheduleBulk st now uploads { type := "interval", startTime := T, timezone := tz }).2
          = .ok rs ∧
      rs.length = uploads.length ∧
      ∀ r ∈ rs, r.scheduledTime = T ∧ r.status = .scheduled := by
  obtain ⟨rs, h1, h2, h3⟩ :=
    scheduleBulkAux_interval_none now T tz h uploads st 0 [] (by simp)
  exact ⟨rs, h1, by simpa using h2, h3⟩

/-- Witness for `scheduleBulk_interval_defaulted` with two uploads. -/
theorem scheduleBulk_interval_defaulted_witness :
    ∃ rs,
      (scheduleBulk ⟨[], [], 0⟩ 0 [7, 8]
          { type := "interval", startTime := 50, timezone := "UTC" }).2 = .ok rs ∧
      rs.length = 2 ∧
      ∀ r ∈ rs, r.scheduledTime = 50 ∧ r.status = .scheduled := by
  simpa using scheduleBulk_interval_defaulted ⟨[], [], 0⟩ 0 50 "UTC" [7, 8] (by norm_num)

/-- Claim C2 counterexample: `scheduleBulk` with a `custom` pattern whose
`times` list has one (future) entry and two uploads does fail with
`InsufficientTimes`, but the schedule store is not unchanged — the first
upload's record was already persisted before the loop threw. -/
theorem scheduleBulk_custom_partial_commit :
    (scheduleBulk ⟨[], [], 0⟩ 0 [7, 8]
        { type := "custom", startTime := 0, timezone := "UTC", times := some [100] }).2
        = .error "Not enough custom times provided" ∧
    (scheduleBulk ⟨[], [], 0⟩ 0 [7, 8]
        { type := "custom", startTime := 0, timezone := "UTC", times := some [100] }).1.schedules
        = [(0, { id := 0, uploadData := 7, scheduledTime := 100, timezone := "UTC",
                 status := .scheduled, createdAt := 0 })] ∧
    (scheduleBulk ⟨[], [], 0⟩ 0 [7, 8]
        { type := "custom", startTime := 0, timezone := "UTC", times := some [100] }).1.schedules
        ≠ (⟨[], [], 0⟩ : SchedulerState).schedules := by
  refine ⟨rfl, rfl, ?_⟩
  decide

theorem scheduleBulkAux_custom_insufficient (now T : Int) (tz : String) (ts : List Int)
    (hts : ∀ t ∈ ts, now < t) :
    ∀ (uploads : List Nat) (st : SchedulerState) (index : Nat) (acc : List ScheduleResult),
      index ≤ ts.length → ts.length < index + uploads.length →
      (scheduleBulkAux now { type := "custom", startTime := T, timezone := tz, times := some ts }
          st uploads index acc).2 = .error "Not enough custom times provided" ∧
      (scheduleBulkAux now { type := "custom", startTime := T, timezone := tz, times := some ts }
          st uploads index acc).1.schedules.length
        = st.schedules.length + (ts.length - index) := by
  intro uploads
  induction uploads with
  | nil =>
    intro st index acc hle hlt
    simp only [List.length_nil] at hlt
    omega
  | cons u rest ih =>
    intro st index acc hle hlt
    rcases hidx : ts[index]? with _ | t
    · have hlen : ts.length ≤ index := List.getElem?_eq_none_iff.mp hidx
      have et : bulkScheduledTime
          { type := "custom", startTime := T, timezone := tz, times := some ts } index
          = .error "Not enough custom times provided" := by
        simp [bulkScheduledTime, hidx]
      simp only [scheduleBulkAux, et]
      exact ⟨trivial, by omega⟩
    · have hmem : t ∈ ts := List.getElem?_mem hidx
      have hidxlt : index < ts.length := by
        by_contra hcon
        rw [List.getElem?_eq_none_iff.mpr (by omega)] at hidx
        exact Option.noConfusion hidx
      have et : bulkScheduledTime
          { type := "custom", startTime := T, timezone := tz, times := some ts } index
          = .ok t := by
        simp [bulkScheduledTime, hidx]
      simp only [scheduleBulkAux, et]
      rw [scheduleUpload_future _ _ _ _ _ (hts t hmem)]
      obtain ⟨h1, h2⟩ := ih _ (index + 1)
        ((⟨st.nextId, t, .scheduled⟩ : ScheduleResult) :: acc) (by omega)
        (by simp only [List.length_cons] at hlt ⊢; omega)
      refine ⟨h1, ?_⟩
      rw [h2]
      simp only [List.length_append, List.length_cons, List.length_nil]
      omega

/-- Claim C2 (amended): `scheduleBulk` with a `custom` pattern whose
`times` list (all entries future) has fewer entries than `uploads` fails
with `InsufficientTimes`, but the records created before the missing index
remain persisted: the store grows by exactly `times.length` records
(partial commit), rather than being unchanged. -/
theorem scheduleBulk_custom_insufficient (st : SchedulerState) (now T : Int) (tz : String)
    (ts : List Int) (uploads : List Nat)
    (hlen : ts.length < uploads.length) (hts : ∀ t ∈ ts, now < t) :
    (scheduleBulk st now uploads
        { type := "custom", startTime := T, timezone := tz, times := some ts }).2
        = .error "Not enough custom times provided" ∧
    (scheduleBulk st now uploads
        { type := "custom", startTime := T, timezone := tz, times := some ts }).1.schedules.length
        = st.schedules.length + ts.length := by
  obtain ⟨h1, h2⟩ := scheduleBulkAux_custom_insufficient now T tz ts hts uploads st 0 []
    (by omega) (by omega)
  exact ⟨h1, by simpa using h2⟩

/-- Witness for `scheduleBulk_custom_insufficient`: one future time, two
uploads, starting from the empty store. -/
theorem scheduleBulk_custom_insufficient_witness :
    (scheduleBulk ⟨[], [], 0⟩ 0 [7, 8]
        { type := "custom", startTime := 0, timezone := "UTC", times := some [100] }).2
        = .error "Not enough custom times provided" ∧
    (scheduleBulk ⟨[], [], 0⟩ 0 [7, 8]
        { type := "custom", startTime := 0, timezone := "UTC", times := some [100] }).1.schedules.length
        = (⟨[], [], 0⟩ : SchedulerState).schedules.length + 1 := by
  simpa using scheduleBulk_custom_insufficient ⟨[], [], 0⟩ 0 0 "UTC" [100] [7, 8]
    (by norm_num) (by intro t ht; simp at ht; omega)

theorem mlookup_mdelete_of_none {α : Type} (l : List (Nat × α)) (k id : Nat)
    (h : mlookup l id = none) : mlookup (mdelete l k) id = none := by
  by_cases hik : id = k
  · subst hik; exact mlookup_mdelete_self l id
  · rw [mlookup_mdelete_ne l k id hik]; exact h

theorem scheduleUpload_timerFree (id : Nat) (st : SchedulerState) (now : Int) (u : Nat)
    (t : Int) (tz : String) (h : TimerFree id st) :
    TimerFree id (scheduleUpload st now u t tz).1 := by
  obtain ⟨hj, hn⟩ := h
  unfold scheduleUpload
  by_cases hc : t ≤ now
  · simpa [hc] using ⟨hj, hn⟩
  · have hne : ¬(st.nextId = id) := by omega
    rw [if_neg hc]
    constructor
    · show mlookup (st.jobs ++ [(st.nextId, t)]) id = none
      rw [mlookup_append, hj]
      simp [mlookup, hne]
    · exact Nat.lt_succ_of_lt hn

theorem scheduleBulkAux_timerFree (id : Nat) (now : Int) (pattern : BulkPattern) :
    ∀ (uploads : List Nat) (st : SchedulerState) (index : Nat) (acc : List ScheduleResult),
      TimerFree id st →
      TimerFree id (scheduleBulkAux now pattern st uploads index acc).1 := by
  intro uploads
  induction uploads with
  | nil => intro st index acc h; exact h
  | cons u rest ih =>
    intro st index acc h
    rcases het : bulkScheduledTime pattern index with e | t
    · simpa [scheduleBulkAux, het] using h
    · have hsu := scheduleUpload_timerFree id st now u t pattern.timezone h
      rcases hup : scheduleUpload st now u t pattern.timezone with ⟨st', res⟩
      rw [hup] at hsu
      rcases res with e | r
      · simpa [scheduleBulkAux, het, hup] using hsu
      · simpa [scheduleBulkAux, het, hup] using ih st' (index + 1) (r :: acc) hsu

theorem executeUpload_jobs_none (id scheduleId : Nat) (st : SchedulerState) (now : Int)
    (submit : Except String JobInfo) (h : mlookup st.jobs id = none) :
    mlookup (executeUpload st now scheduleId submit).jobs id = none ∧
      (executeUpload st now scheduleId submit).nextId = st.nextId := by
  unfold executeUpload executeUploadStates
  rcases hlk : mlookup st.schedules scheduleId with _ | sd
  · exact ⟨h, rfl⟩
  · rcases submit with e | r <;>
      exact ⟨mlookup_mdelete_of_none st.jobs scheduleId id h, rfl⟩

theorem schedStep_timerFree (id : Nat) (st : SchedulerState) (now : Int)
    (ev : SchedulerEvent) (hP : TimerFree id st) (hev : reschedulesId id ev = false) :
    TimerFree id (schedStep st now ev).1 ∧ id ∉ (schedStep st now ev).2 := by
  obtain ⟨hj, hn⟩ := hP
  cases ev with
  | scheduleReq u t tz =>
    exact ⟨scheduleUpload_timerFree id st now u t tz ⟨hj, hn⟩, by simp [schedStep]⟩
  | bulkReq us pattern =>
    exact ⟨scheduleBulkAux_timerFree id now pattern us st 0 [] ⟨hj, hn⟩, by simp [schedStep]⟩
  | cancelReq j =>
    refine ⟨⟨?_, ?_⟩, by simp [schedStep]⟩ <;>
      · unfold schedStep cancelSchedule
        rcases hlk : mlookup st.schedules j with _ | sd <;>
          simp [hlk, mlookup_mdelete_of_none st.jobs j id hj, hn]
  | rescheduleReq j t tz =>
    have hne : id ≠ j := by
      intro he
      subst he
      simp [reschedulesId] at hev
    refine ⟨⟨?_, ?_⟩, by simp [schedStep]⟩ <;>
      · unfold schedStep reschedule rescheduleJob
        rcases hlk : mlookup st.schedules j with _ | sd <;>
          simp [hlk, mlookup_mset_ne _ _ _ _ hne, hj, hn]
  | timerFire j submit =>
    unfold schedStep
    by_cases harm : (mlookup st.jobs j).isSome
    · have hne : id ≠ j := by
        intro he
        subst he
        rw [hj] at harm
        simp at harm
      have hspent : mlookup (mdelete st.jobs j) id = none :=
        mlookup_mdelete_of_none st.jobs j id hj
      obtain ⟨h1, h2⟩ := executeUpload_jobs_none id j
        { st with jobs := mdelete st.jobs j } now submit hspent
      refine ⟨⟨by simpa [harm] using h1, by simp only [if_pos harm]; rw [h2]; exact hn⟩, ?_⟩
      simp only [if_pos harm]
      rcases hsc : (mlookup st.schedules j).isSome with _ | _ <;> simp [hsc, hne]
    · simp only [if_neg harm]
      exact ⟨⟨hj, hn⟩, by simp⟩

theorem schedRun_no_submission (id : Nat) :
    ∀ (trace : List (Int × SchedulerEvent)) (st : SchedulerState),
      TimerFree id st →
      (∀ p ∈ trace, reschedulesId id p.2 = false) →
      id ∉ (schedRun st trace).2 := by
  intro trace
  induction trace with
  | nil => intro st _ _; simp [schedRun]
  | cons p rest ih =>
    intro st hP htrace
    obtain ⟨h1, h2⟩ := schedStep_timerFree id st p.1 p.2 hP
      (htrace p (List.mem_cons_self p rest))
    have hrest := ih (schedStep st p.1 p.2).1 h1
      (fun q hq => htrace q (List.mem_cons_of_mem p hq))
    intro hmem
    rcases List.mem_append.mp (by simpa [schedRun] using hmem) with hmem | hmem
    · exact h2 hmem
    · exact hrest hmem

/-- Claim C4: cancelling a `scheduled` schedule marks its record
`cancelled` (recording `cancelledAt`), disarms its timer, and — over any
subsequent trace of events that does not explicitly `reschedule` that id —
no upload job is ever submitted from that schedule, even if its original
fire time elapses inside the trace. -/
theorem cancelSchedule_never_refires (st : SchedulerState) (now : Int) (scheduleId : Nat)
    (sd : ScheduleData) (hlk : mlookup st.schedules scheduleId = some sd)
    (hstat : sd.status = .scheduled) (hfresh : scheduleId < st.nextId)
    (trace : List (Int × SchedulerEvent))
    (htrace : ∀ p ∈ trace, reschedulesId scheduleId p.2 = false) :
    mlookup (cancelSchedule st now scheduleId).schedules scheduleId
        = some { sd with status := .cancelled, cancelledAt := some now } ∧
    mlookup (cancelSchedule st now scheduleId).jobs scheduleId = none ∧
    scheduleId ∉ (schedRun (cancelSchedule st now scheduleId) trace).2 := by
  have hrec : mlookup (cancelSchedule st now scheduleId).schedules scheduleId
      = some { sd with status := .cancelled, cancelledAt := some now } := by
    unfold cancelSchedule
    rw [hlk]
    exact mlookup_mset_self _ _ _
  have hjobs : mlookup (cancelSchedule st now scheduleId).jobs scheduleId = none := by
    unfold cancelSchedule
    rcases hl : mlookup st.schedules scheduleId with _ | sd' <;>
      simp [hl, mlookup_mdelete_self]
  have hnext : (cancelSchedule st now scheduleId).nextId = st.nextId := by
    unfold cancelSchedule
    rcases hl : mlookup st.schedules scheduleId with _ | sd' <;> simp [hl]
  refine ⟨hrec, hjobs, ?_⟩
  exact schedRun_no_submission scheduleId trace _ ⟨hjobs, by rw [hnext]; exact hfresh⟩ htrace

/-- Witness for `cancelSchedule_never_refires`: one scheduled record with a
live timer is cancelled at time 5; a later firing attempt at time 1000
(past its original fire time 100) submits nothing. -/
theorem cancelSchedule_never_refires_witness :
    mlookup (cancelSchedule sampleState 5 0).schedules 0
        = some ({ sampleSchedule with status := .cancelled, cancelledAt := some 5 }) ∧
    mlookup (cancelSchedule sampleState 5 0).jobs 0 = none ∧
    0 ∉ (schedRun (cancelSchedule sampleState 5 0)
        [(1000, .timerFire 0 (.ok ⟨9, "queued"⟩))]).2 := by
  exact cancelSchedule_never_refires sampleState 5 0 sampleSchedule rfl rfl (by decide)
    [(1000, .timerFire 0 (.ok ⟨9, "queued"⟩))]
    (by intro p hp; simp only [List.mem_singleton] at hp; subst hp; rfl)

/-- Claim C6: when an armed schedule's timer fires, the handler persists the
`executing` transition, hands the upload to job submission, then persists
`completed` (recording the returned job info, which carries the job id) on
success or `failed` (recording the error message) on failure; it is total
(never propagates an exception), drops the timer, and leaves every other
schedule's record untouched. -/
theorem executeUpload_lifecycle (st : SchedulerState) (now : Int) (scheduleId : Nat)
    (sd : ScheduleData) (submit : Except String JobInfo)
    (harmed : (mlookup st.jobs scheduleId).isSome)
    (hlk : mlookup st.schedules scheduleId = some sd) (hstat : sd.status = .scheduled) :
    ∃ s1 s2, executeUploadStates st now scheduleId submit = [s1, s2] ∧
      mlookup s1.schedules scheduleId = some { sd with status := .executing } ∧
      (∀ r, submit = .ok r →
        mlookup s2.schedules scheduleId
          = some { sd with status := .completed, result := some r, completedAt := some now }) ∧
      (∀ e, submit = .error e →
        mlookup s2.schedules scheduleId
          = some { sd with status := .failed, error := some e, failedAt := some now }) ∧
      mlookup s2.jobs scheduleId = none ∧
      (∀ j, j ≠ scheduleId → mlookup s2.schedules j = mlookup st.schedules j) := by
  rcases submit with e | r
  · refine ⟨_, _, by unfold executeUploadStates; rw [hlk], ?_, ?_, ?_, ?_, ?_⟩
    · exact mlookup_mset_self _ _ _
    · intro r hr; exact Except.noConfusion hr
    · intro e' he
      injection he with he
      subst he
      simp only
      rw [mlookup_mset_self]
    · simp only
      exact mlookup_mdelete_self _ _
    · intro j hj
      simp only
      rw [mlookup_mset_ne _ _ _ _ hj, mlookup_mset_ne _ _ _ _ hj]
  · refine ⟨_, _, by unfold executeUploadStates; rw [hlk], ?_, ?_, ?_, ?_, ?_⟩
    · exact mlookup_mset_self _ _ _
    · intro r' hr
      injection hr with hr
      subst hr
      simp only
      rw [mlookup_mset_self]
    · intro e he; exact Except.noConfusion he
    · simp only
      exact mlookup_mdelete_self _ _
    · intro j hj
      simp only
      rw [mlookup_mset_ne _ _ _ _ hj, mlookup_mset_ne _ _ _ _ hj]

/-- Witness for `executeUpload_lifecycle`: a successful submission returning
job id 9 completes the schedule. -/
theorem executeUpload_lifecycle_witness :
    ∃ s1 s2, executeUploadStates sampleState 100 0 (.ok ⟨9, "queued"⟩) = [s1, s2] ∧
      mlookup s1.schedules 0 = some ({ sampleSchedule with status := .executing }) ∧
      (∀ r, (Except.ok ⟨9, "queued"⟩ : Except String JobInfo) = .ok r →
        mlookup s2.schedules 0 = some ({ sampleSchedule with
          status := .completed, result := some r, completedAt := some 100 })) ∧
      (∀ e, (Except.ok ⟨9, "queued"⟩ : Except String JobInfo) = .error e →
        mlookup s2.schedules 0 = some ({ sampleSchedule with
          status := .failed, error := some e, failedAt := some 100 })) ∧
      mlookup s2.jobs 0 = none ∧
      (∀ j, j ≠ 0 → mlookup s2.schedules j = none) := by
  obtain ⟨s1, s2, h1, h2, h3, h4, h5, h6⟩ :=
    executeUpload_lifecycle sampleState 100 0 sampleSchedule (.ok ⟨9, "queued"⟩) rfl rfl rfl
  refine ⟨s1, s2, h1, h2, h3, h4, h5, ?_⟩
  intro j hj
  rw [h6 j hj]
  have h0 : ¬(0 = j) := fun he => hj he.symm
  simp [sampleState, mlookup, h0]

theorem loadTimersGo_cons (now : Int) (acc : List (Nat × Int)) (p : Nat × ScheduleData)
    (rest : List (Nat × ScheduleData)) :
    loadTimersGo now acc (p :: rest) =
      loadTimersGo now
        (if p.2.status = .scheduled ∧ now < p.2.scheduledTime then
          mset acc p.1 p.2.scheduledTime
        else acc) rest := rfl

theorem loadTimersGo_not_mem (now : Int) (id : Nat) :
    ∀ (l : List (Nat × ScheduleData)) (acc : List (Nat × Int)),
      id ∉ l.map Prod.fst →
      mlookup (loadTimersGo now acc l) id = mlookup acc id := by
  intro l
  induction l with
  | nil => intro acc _; rfl
  | cons p rest ih =>
    intro acc hmem
    have hpid : ¬(id = p.1) := fun he => hmem (by simp [he])
    have hrest : id ∉ rest.map Prod.fst := fun h => hmem (by simp [h])
    rw [loadTimersGo_cons]
    by_cases hc : p.2.status = .scheduled ∧ now < p.2.scheduledTime
    · rw [if_pos hc, ih _ hrest, mlookup_mset_ne _ _ _ _ hpid]
    · rw [if_neg hc]
      exact ih acc hrest

theorem loadTimersGo_armed (now : Int) (id : Nat) (sd : ScheduleData) :
    ∀ (l : List (Nat × ScheduleData)) (acc : List (Nat × Int)),
      (l.map Prod.fst).Nodup → mlookup l id = some sd →
      sd.status = .scheduled → now < sd.scheduledTime →
      mlookup (loadTimersGo now acc l) id = some sd.scheduledTime := by
  intro l
  induction l with
  | nil => intro acc _ h; exact absurd h (by simp)
  | cons p rest ih =>
    intro acc hnd hlk hstat htime
    simp only [List.map_cons, List.nodup_cons] at hnd
    by_cases hp : p.1 = id
    · rw [mlookup_cons, if_pos hp] at hlk
      injection hlk with hlk
      subst hlk
      have hc : p.2.status = .scheduled ∧ now < p.2.scheduledTime := ⟨hstat, htime⟩
      have hrest : id ∉ rest.map Prod.fst := by rw [← hp]; exact hnd.1
      rw [loadTimersGo_cons, if_pos hc, loadTimersGo_not_mem now id rest _ hrest, hp,
        mlookup_mset_self]
    · rw [mlookup_cons, if_neg hp] at hlk
      rw [loadTimersGo_cons]
      by_cases hc : p.2.status = .scheduled ∧ now < p.2.scheduledTime
      · rw [if_pos hc]
        exact ih _ hnd.2 hlk hstat htime
      · rw [if_neg hc]
        exact ih _ hnd.2 hlk hstat htime

theorem loadTimersGo_stale (now : Int) (id : Nat) (sd : ScheduleData) :
    ∀ (l : List (Nat × ScheduleData)) (acc : List (Nat × Int)),
      (l.map Prod.fst).Nodup → mlookup l id = some sd →
      sd.scheduledTime ≤ now →
      mlookup (loadTimersGo now acc l) id = mlookup acc id := by
  intro l
  induction l with
  | nil => intro acc _ h; exact absurd h (by simp)
  | cons p rest ih =>
    intro acc hnd hlk htime
    simp only [List.map_cons, List.nodup_cons] at hnd
    by_cases hp : p.1 = id
    · rw [mlookup_cons, if_pos hp] at hlk
      injection hlk with hlk
      subst hlk
      have hc : ¬(p.2.status = .scheduled ∧ now < p.2.scheduledTime) := by
        intro hcon
        omega
      have hrest : id ∉ rest.map Prod.fst := by rw [← hp]; exact hnd.1
      rw [loadTimersGo_cons, if_neg hc, loadTimersGo_not_mem now id rest _ hrest]
    · rw [mlookup_cons, if_neg hp] at hlk
      rw [loadTimersGo_cons]
      by_cases hc : p.2.status = .scheduled ∧ now < p.2.scheduledTime
      · rw [if_pos hc, ih _ hnd.2 hlk htime,
          mlookup_mset_ne _ _ _ _ (fun he => hp he.symm)]
      · rw [if_neg hc]
        exact ih _ hnd.2 hlk htime

/-- Claim C9: on startup, records are reloaded unchanged; every persisted
`scheduled` record with a strictly-future `scheduledTime` gets its timer
re-armed at the original time unchanged, while a `scheduled` record whose
time already passed gets no timer and is neither executed nor marked
failed — it stays in the store exactly as persisted, still `scheduled`. -/
theorem loadSchedules_recovery (persisted : List (Nat × ScheduleData)) (now : Int)
    (fresh : Nat) (hnd : (persisted.map Prod.fst).Nodup) :
    (loadSchedules persisted now fresh).schedules = persisted ∧
    (∀ id sd, mlookup persisted id = some sd → sd.status = .scheduled →
      now < sd.scheduledTime →
      mlookup (loadSchedules persisted now fresh).jobs id = some sd.scheduledTime) ∧
    (∀ id sd, mlookup persisted id = some sd → sd.status = .scheduled →
      sd.scheduledTime ≤ now →
      mlookup (loadSchedules persisted now fresh).jobs id = none ∧
      mlookup (loadSchedules persisted now fresh).schedules id = some sd) := by
  refine ⟨rfl, ?_, ?_⟩
  · intro id sd hlk hstat htime
    exact loadTimersGo_armed now id sd persisted [] hnd hlk hstat htime
  · intro id sd hlk hstat htime
    exact ⟨loadTimersGo_stale now id sd persisted [] hnd hlk htime, hlk⟩

/-- Witness for `loadSchedules_recovery` at `now = 50`: the future record
(time 100) is re-armed at 100; the past-due record (time 20) gets no timer
and stays `scheduled` unchanged. -/
theorem loadSchedules_recovery_witness :
    (loadSchedules [(0, sampleSchedule), (1, staleSchedule)] 50 2).schedules
        = [(0, sampleSchedule), (1, staleSchedule)] ∧
    mlookup (loadSchedules [(0, sampleSchedule), (1, staleSchedule)] 50 2).jobs 0
        = some sampleSchedule.scheduledTime ∧
    mlookup (loadSchedules [(0, sampleSchedule), (1, staleSchedule)] 50 2).jobs 1 = none ∧
    mlookup (loadSchedules [(0, sampleSchedule), (1, staleSchedule)] 50 2).schedules 1
        = some staleSchedule := by
  obtain ⟨h1, h2, h3⟩ :=
    loadSchedules_recovery [(0, sampleSchedule), (1, staleSchedule)] 50 2 (by decide)
  obtain ⟨h3a, h3b⟩ := h3 1 staleSchedule rfl rfl (by decide)
  exact ⟨h1, h2 0 sampleSchedule rfl rfl (by decide), h3a, h3b⟩

/-- Claim C5: a job (either type) whose execution fails on every attempt is
retried with exponential backoff — 5 s after the first failure, 10 s after
the second — executes exactly 3 total attempts, ends `failed` with the
third attempt's error recorded verbatim, and is never executed a fourth
time (only attempts 0, 1, 2 are consulted). -/
theorem runJob_all_failures (exec : Nat → Except String Nat) (msg : Nat → String)
    (hfail : ∀ k, k < 3 → exec k = .error (msg k)) :
    runJob processingJobOptions exec =
      { state := .failed, attemptsMade := 3, failureReason := some (msg 2), result := none,
        delays := [5000, 10000] } ∧
    runJob uploadJobOptions exec =
      { state := .failed, attemptsMade := 3, failureReason := some (msg 2), result := none,
        delays := [5000, 10000] } := by
  have h0 := hfail 0 (by norm_num)
  have h1 := hfail 1 (by norm_num)
  have h2 := hfail 2 (by norm_num)
  constructor <;>
    simp [runJob, runAttempts, processingJobOptions, uploadJobOptions, h0, h1, h2]

/-- Witness for `runJob_all_failures` with a processor that always throws
`"boom"`. -/
theorem runJob_all_failures_witness :
    runJob processingJobOptions (fun _ => .error "boom") =
      { state := .failed, attemptsMade := 3, failureReason := some "boom", result := none,
        delays := [5000, 10000] } ∧
    runJob uploadJobOptions (fun _ => .error "boom") =
      { state := .failed, attemptsMade := 3, failureReason := some "boom", result := none,
        delays := [5000, 10000] } :=
  runJob_all_failures (fun _ => .error "boom") (fun _ => "boom") (fun _ _ => rfl)

/-- Claim C8: whenever the AI model is unavailable or its call errors, the
content generator returns the deterministic fallback content — with a
usable (present and nonempty) title and description — instead of
propagating the failure (the handler is total: no exception escapes to the
pipeline). -/
theorem generateTitleAndDescription_fallback
    (aiCall : Option (Except String GeneratedContent))
    (videoMetadata : VideoMetadata) (clipInfo : ClipInfo)
    (hfail : aiCall = none ∨ ∃ e, aiCall = some (.error e)) :
    generateTitleAndDescription aiCall videoMetadata clipInfo
        = generateFallbackContent videoMetadata clipInfo ∧
    (∃ t, (generateFallbackContent videoMetadata clipInfo).title = some t ∧ t ≠ "") ∧
    (∃ d, (generateFallbackContent videoMetadata clipInfo).description = some d ∧ d ≠ "") := by
  refine ⟨?_, ⟨_, rfl, ?_⟩, ⟨_, rfl, ?_⟩⟩
  · rcases hfail with h | ⟨e, h⟩ <;> subst h <;> rfl
  · intro hcon
    have hlen := congrArg String.length hcon
    rw [String.length_append, String.length_append, String.length_append] at hlen
    have h8 : (" #Shorts" : String).length = 8 := rfl
    have h0 : ("" : String).length = 0 := rfl
    omega
  · intro hcon
    have hlen := congrArg String.length hcon
    rw [String.length_append, String.length_append] at hlen
    have h34 : ("Check out this amazing clip from: " : String).length = 34 := rfl
    have h0 : ("" : String).length = 0 := rfl
    omega

/-- Witness for `generateTitleAndDescription_fallback`: a rejected model
call on a concrete video falls back. -/
theorem generateTitleAndDescription_fallback_witness :
    generateTitleAndDescription (some (.error "boom")) ⟨"My Video", none, none⟩ ⟨0, 0, 0⟩
        = generateFallbackContent ⟨"My Video", none, none⟩ ⟨0, 0, 0⟩ ∧
    (∃ t, (generateFallbackContent ⟨"My Video", none, none⟩ ⟨0, 0, 0⟩).title = some t ∧
      t ≠ "") ∧
    (∃ d, (generateFallbackContent ⟨"My Video", none, none⟩ ⟨0, 0, 0⟩).description = some d ∧
      d ≠ "") :=
  generateTitleAndDescription_fallback (some (.error "boom")) ⟨"My Video", none, none⟩
    ⟨0, 0, 0⟩ (Or.inr ⟨"boom", rfl⟩)

end YtShorts
